import Mathlib

/-!
Verification of the static style-checking engine (`code_analyzer.py`)

This file is a shallow embedding of the analyser in `src/code_analyzer.py`:

* the per-line rule predicates (`indentation_not_multiple_of_four`,
  `unnecessary_semicolon`, `less_than_two_spaces_before_inline_comments`,
  `todo_found`, `too_many_spaces_after_construction_name`);
* the per-file line pass with its blank-line run counter (`linePass`);
* the `ErrorMessage` record, its message table and its rendering;
* the tree pass (`visit` over a model of the relevant `ast` node kinds);
* sorting, deduplication and reporting (`report_errors`);
* the per-file batch driver, with parsing modelled as an external
  collaborator that may fail (`runBatch`).

Lines are modelled as `List Char`, exactly as Python hands them to the
loop: each line keeps its original whitespace, including the trailing
newline produced by file iteration (except possibly the last line of a
file).  Machine integers do not occur (Python integers are unbounded),
so `Nat` is used throughout.
-/

namespace CodeAnalyzer

/-- Python `str.isspace` / regex `\s` on the ASCII range: space, tab,
newline, carriage return, vertical tab, form feed.  (Unicode whitespace
is not modelled; no input considered here contains it.) -/
def isPySpace (c : Char) : Bool :=
  c = ' ' ∨ c = '\t' ∨ c = '\n' ∨ c = '\r' ∨ c = Char.ofNat 11 ∨ c = Char.ofNat 12

/-- Truthiness of `line.strip()` negated: a line is blank when every
character is whitespace (then `line.strip()` is the empty string, which
is falsy). -/
def isBlankLine (l : List Char) : Bool :=
  l.all isPySpace

/-- Constant `MAXIMUM_LINE_LENGTH = 79` (line 7 of the source). -/
def MAXIMUM_LINE_LENGTH : Nat := 79

/-- Embedding of `re.match(r'^(\s{4})*\S', line)` as a deterministic scanner.

The regex matches iff, for some `k`, the first `4 * k` characters are
whitespace and the character at index `4 * k` exists and is
non-whitespace.  Because the characters consumed by `(\s{4})*` must all
be whitespace and `\S` must be non-whitespace, at most one `k` can
succeed, so the greedy backtracking search reduces to the following
recursion: if the head is non-whitespace, `\S` matches with zero
groups; otherwise a whole group of four whitespace characters must be
consumed before trying again. -/
def matchIndent : List Char → Bool
  | c :: b :: c2 :: d :: rest =>
      if isPySpace c then
        (isPySpace b && isPySpace c2 && isPySpace d) && matchIndent rest
      else true
  | [] => false
  | c :: _ => !(isPySpace c)

/-- Source function `indentation_not_multiple_of_four` (lines 13–16): returns
`False` when the regex matches, `True` otherwise. -/
def indentation_not_multiple_of_four (l : List Char) : Bool :=
  !(matchIndent l)

/-- The scanning loop of `unnecessary_semicolon` (source lines 19–36).
State: `in_string` flag plus the remembered `quotes` character.  In code
state a quote enters string state remembering the quote, `#` breaks out
of the loop (the function then falls through and returns `None`, which
is falsy — modelled as `false`), `;` returns `True`.  In string state
only the matching quote leaves; escape sequences are not honoured.  The
`for`/`else` returns `False` when the loop completes. -/
def semicolonAux : List Char → Bool → Char → Bool
  | [], _, _ => false
  | ch :: rest, in_string, quotes =>
    if in_string then
      if ch = quotes then semicolonAux rest false quotes
      else semicolonAux rest true quotes
    else
      if ch = '\'' ∨ ch = '"' then semicolonAux rest true ch
      else if ch = '#' then false
      else if ch = ';' then true
      else semicolonAux rest false quotes

/-- Source function `unnecessary_semicolon` (lines 19–36).  Python initialises
`quotes = ''`; that value is never compared before being overwritten,
so any initial character is equivalent — a space is used. -/
def unnecessary_semicolon (l : List Char) : Bool :=
  semicolonAux l false ' '

/-- Embedding of `re.match(r'[^#]*[^\s#]+\s?#.*', line)` as a deterministic scanner
(source lines 39–42).  The three parts before `#` contain no `#`, so
any match places its `#` at the line's first `#`; the regex therefore
matches iff, at the first `#` of the line, either the character
immediately before it is neither whitespace nor `#`, or that character
is a single whitespace preceded by a character that is neither
whitespace nor `#`.  The scanner carries the previous two characters. -/
def inlineScan : Option Char → Option Char → List Char → Bool
  | _, _, [] => false
  | p2, p1, c :: rest =>
    if c = '#' then
      match p1 with
      | none => false
      | some a =>
        if !(isPySpace a) && a ≠ '#' then true
        else
          match p2 with
          | some b => isPySpace a && !(isPySpace b) && b ≠ '#'
          | none => false
    else inlineScan p1 (some c) rest

/-- Source function `less_than_two_spaces_before_inline_comments` (lines 39–42). -/
def less_than_two_spaces_before_inline_comments (l : List Char) : Bool :=
  inlineScan none none l

/-- Case-insensitive search for the four consecutive characters
`TODO` anywhere in the list. -/
def containsTodoCI : List Char → Bool
  | c1 :: c2 :: c3 :: c4 :: rest =>
      ((c1 = 'T' ∨ c1 = 't') ∧ (c2 = 'O' ∨ c2 = 'o') ∧
       (c3 = 'D' ∨ c3 = 'd') ∧ (c4 = 'O' ∨ c4 = 'o'))
      || containsTodoCI (c2 :: c3 :: c4 :: rest)
  | _ => false

/-- Source function `todo_found`: `re.match(r'.*#.*[Tt][Oo][Dd][Oo].*', line)` (source
lines 45–48).  The regex matches iff some `#` is followed, strictly
later, by a case-insensitive `TODO`; that is equivalent to `TODO`
occurring after the first `#`. -/
def todo_found (l : List Char) : Bool :=
  match l.dropWhile (fun c => c ≠ '#') with
  | _ :: rest => containsTodoCI rest
  | [] => false

/-- Source function `too_many_spaces_after_construction_name`:
`re.search(r'(def|class)\s{2,}', line)` returning `match.group(1)`
(source lines 51–55).  `re.search` takes the leftmost match; at a fixed
position the alternatives `def` and `class` start with different
letters, so at most one can apply. -/
def too_many_spaces_after_construction_name : List Char → Option String
  | 'd' :: 'e' :: 'f' :: a :: b :: rest =>
      if isPySpace a && isPySpace b then some "def"
      else too_many_spaces_after_construction_name ('e' :: 'f' :: a :: b :: rest)
  | 'c' :: 'l' :: 'a' :: 's' :: 's' :: a :: b :: rest =>
      if isPySpace a && isPySpace b then some "class"
      else too_many_spaces_after_construction_name ('l' :: 'a' :: 's' :: 's' :: a :: b :: rest)
  | _ :: rest => too_many_spaces_after_construction_name rest
  | [] => none

/-- Source function `name_not_camel_case` (lines 58–61):
`re.match(r'(?:[A-Z][a-z_]*)+', name)` succeeds iff the name's first
character is an ASCII capital (one group with an empty `[a-z_]*` tail
suffices, and every match needs a leading capital). -/
def name_not_camel_case (name : String) : Bool :=
  match name.toList with
  | c :: _ => !('A' ≤ c ∧ c ≤ 'Z')
  | [] => true

/-- Source function `name_not_snake_case` (lines 64–67):
`re.match(r'[a-z_]+', name)` succeeds iff the name's first character is
an ASCII lowercase letter or underscore. -/
def name_not_snake_case (name : String) : Bool :=
  match name.toList with
  | c :: _ => !(('a' ≤ c ∧ c ≤ 'z') ∨ c = '_')
  | [] => true

/-- The `ErrorMessage` record (source lines 70–108).  The `message`
field of the Python object is a pure function of `key` and `name`
(`generate_error_message`), so it is kept as a derived function rather
than a stored field. -/
structure ErrorMessage where
  filepath : String
  line_number : Nat
  key : Nat
  name : Option String
deriving DecidableEq, Repr

/-- Interpolation of a Python value into an f-string: `None` renders as
the four characters `None`. -/
def interpName : Option String → String
  | some s => s
  | none => "None"

/-- Method `ErrorMessage.generate_error_message` (source lines 84–108).  A key
outside 1–12 falls off the end of the `if`/`elif` chain and yields
Python `None`; that case is represented by `Option.none` (such a key is
never constructed by the analyser). -/
def generate_error_message (key : Nat) (name : Option String) : Option String :=
  if key = 1 then some "Too long"
  else if key = 2 then some "Indentation not a multiple of 4"
  else if key = 3 then some "Unnecessary semicolon"
  else if key = 4 then some "At least two spaces required before inline comments"
  else if key = 5 then some "TODO found"
  else if key = 6 then some "More than two blank lines used before this line"
  else if key = 7 then some ("Too many spaces after " ++ interpName name)
  else if key = 8 then some ("Class name '" ++ interpName name ++ "' should use CamelCase")
  else if key = 9 then some ("Function name '" ++ interpName name ++ "' should use snake_case")
  else if key = 10 then some ("Argument name '" ++ interpName name ++ "' should use snake_case")
  else if key = 11 then some ("S011 Variable name '" ++ interpName name ++ "' should use snake_case")
  else if key = 12 then some "Default argument value is mutable"
  else none

/-- Python's `f"{key:03d}"`: the decimal digits zero-padded on the left
to width 3. -/
def pad3 (key : Nat) : String :=
  if key < 10 then "00" ++ toString key
  else if key < 100 then "0" ++ toString key
  else toString key

/-- Method `ErrorMessage.__repr__` (source lines 78–82):
`f"{filepath}: Line {line_number}: S{key:03d} {message}"` (the two
adjacent f-strings concatenate).  A `message` of Python `None` would
render as `None`. -/
def reprErrorMessage (e : ErrorMessage) : String :=
  e.filepath ++ (": Line " ++ (toString e.line_number ++ (": S" ++ (pad3 e.key ++
    (" " ++ interpName (generate_error_message e.key e.name))))))

/-- The per-line body of the analysis loop for a non-blank line (source
lines 188–207): the seven checks, in source order, each appending at
most one `ErrorMessage` via `log_error`. -/
def lineErrors (fp : String) (number : Nat) (blank_line_counter : Nat)
    (line : List Char) : List ErrorMessage :=
  (if MAXIMUM_LINE_LENGTH < line.length then [⟨fp, number, 1, none⟩] else []) ++
  (if indentation_not_multiple_of_four line then [⟨fp, number, 2, none⟩] else []) ++
  (if unnecessary_semicolon line then [⟨fp, number, 3, none⟩] else []) ++
  (if less_than_two_spaces_before_inline_comments line then [⟨fp, number, 4, none⟩] else []) ++
  (if todo_found line then [⟨fp, number, 5, none⟩] else []) ++
  (if 2 < blank_line_counter then [⟨fp, number, 6, none⟩] else []) ++
  (match too_many_spaces_after_construction_name line with
   | some construction_name => [⟨fp, number, 7, some construction_name⟩]
   | none => [])

/-- The line-oriented pass over one file (source lines 186–211):
`enumerate(file, start=1)` with the `blank_line_counter` state.  A
blank line only increments the counter; a non-blank line runs the
checks (the counter check sees the run of blank lines just before it)
and resets the counter to zero. -/
def linePass (fp : String) : Nat → Nat → List (List Char) → List ErrorMessage
  | _, _, [] => []
  | number, blank_line_counter, line :: rest =>
    if isBlankLine line then linePass fp (number + 1) (blank_line_counter + 1) rest
    else lineErrors fp number blank_line_counter line ++ linePass fp (number + 1) 0 rest

/-- The sort key of `report_errors` (source line 159):
`operator.attrgetter('line_number', 'key')` compares the pair
`(line_number, key)` lexicographically; `pairLe` is the corresponding
non-strict comparison. -/
def pairLe (a b : ErrorMessage) : Bool :=
  a.line_number < b.line_number ∨ (a.line_number = b.line_number ∧ a.key ≤ b.key)

/-- Stable insertion of an element into an already sorted list: the new
element is placed before the first element it compares `≤` to, hence
before nothing it is strictly greater than and after nothing equal that
was already present. -/
def insertSorted (x : ErrorMessage) : List ErrorMessage → List ErrorMessage
  | [] => [x]
  | y :: ys => if pairLe x y then x :: y :: ys else y :: insertSorted x ys

/-- Statement `self.errors.sort(key=operator.attrgetter('line_number', 'key'))`
(source line 159).  Python's `list.sort` is a stable sort on this key;
all stable sorts with the same key agree extensionally, so it is
embedded as a stable insertion sort. -/
def sortErrors : List ErrorMessage → List ErrorMessage
  | [] => []
  | x :: xs => insertSorted x (sortErrors xs)

/-- The printing loop of `report_errors` (source lines 160–167):
`variable_names` accumulates the `name` attribute of every printed
rule-11 error; a rule-11 error whose name was already seen is skipped
(`continue`), every other error is printed. -/
def dedupPass : List (Option String) → List ErrorMessage → List ErrorMessage
  | _, [] => []
  | variable_names, e :: rest =>
    if e.key = 11 then
      if e.name ∈ variable_names then dedupPass variable_names rest
      else e :: dedupPass (e.name :: variable_names) rest
    else e :: dedupPass variable_names rest

/-- Method `CodeAnalyser.report_errors` (source lines 158–167): sort by
`(line_number, key)`, then print with the rule-11 name
deduplication.  The returned list holds the printed errors in print
order. -/
def report_errors (errors : List ErrorMessage) : List ErrorMessage :=
  dedupPass [] (sortErrors errors)

/-- Model of the `ast` node kinds the visitor distinguishes (spec §3:
the tree is an external collaborator exposing a kind tag, a line
number, a name where applicable and children).

* `module` — `ast.Module`, neither statement nor expression;
* `classDef` / `functionDef` — statements carrying their `lineno`;
* `argumentsNode` — `ast.arguments` with the fields the analyser
  touches, in the field order `args`, `kwonlyargs`, `kw_defaults`,
  `defaults` used by `iter_child_nodes`;
* `argNode` — `ast.arg`, neither statement nor expression;
* `nameExpr` — `ast.Name`;
* `listExpr` / `dictExpr` / `setExpr` — the mutable literal
  constructions, expressions with children;
* `noneLeaf` — a `None` entry of `kw_defaults` (a keyword-only
  parameter without a default): skipped by `iter_child_nodes` and not
  an instance of any `ast` class;
* `otherExpr` / `otherStmt` — any other expression / statement node,
  carrying `lineno` and children. -/
inductive Node where
  | module (body : List Node)
  | classDef (lineno : Nat) (nm : String) (body : List Node)
  | functionDef (lineno : Nat) (nm : String) (args : Node) (body : List Node)
  | argumentsNode (args : List Node) (kwonlyargs : List Node)
      (kw_defaults : List Node) (defaults : List Node)
  | argNode (nm : String)
  | nameExpr (lineno : Nat) (id : String)
  | listExpr (lineno : Nat) (elts : List Node)
  | dictExpr (lineno : Nat) (elts : List Node)
  | setExpr (lineno : Nat) (elts : List Node)
  | noneLeaf
  | otherExpr (lineno : Nat) (children : List Node)
  | otherStmt (lineno : Nat) (children : List Node)

mutual

/-- Number of nodes in a tree; termination measure for `visit`. -/
def nodeSize : Node → Nat
  | .module body => 1 + nodesSize body
  | .classDef _ _ body => 1 + nodesSize body
  | .functionDef _ _ args body => 1 + nodeSize args + nodesSize body
  | .argumentsNode args kwonlyargs kw_defaults defaults =>
      1 + nodesSize args + nodesSize kwonlyargs + nodesSize kw_defaults + nodesSize defaults
  | .argNode _ => 1
  | .nameExpr _ _ => 1
  | .listExpr _ elts => 1 + nodesSize elts
  | .dictExpr _ elts => 1 + nodesSize elts
  | .setExpr _ elts => 1 + nodesSize elts
  | .noneLeaf => 1
  | .otherExpr _ children => 1 + nodesSize children
  | .otherStmt _ children => 1 + nodesSize children

/-- Total number of nodes in a list of trees. -/
def nodesSize : List Node → Nat
  | [] => 0
  | n :: ns => nodeSize n + nodesSize ns

end

theorem nodesSize_append (l₁ l₂ : List Node) :
    nodesSize (l₁ ++ l₂) = nodesSize l₁ + nodesSize l₂ := by
  induction l₁ with
  | nil => simp [nodesSize]
  | cons n ns ih => simp [nodesSize, ih]; omega

theorem nodeSize_pos (n : Node) : 0 < nodeSize n := by
  cases n <;> simp [nodeSize]

/-- Test `isinstance(default_arg, (ast.List, ast.Dict, ast.Set))` (source
line 153). -/
def isMutableNode : Node → Bool
  | .listExpr _ _ => true
  | .dictExpr _ _ => true
  | .setExpr _ _ => true
  | _ => false

/-- The mutable state of a `CodeAnalyser` instance (source lines
112–116): `filepath`, `current_line_number`, `in_function` and the
accumulated `errors` list. -/
structure VisitState where
  filepath : String
  current_line_number : Nat
  in_function : Bool
  errors : List ErrorMessage
deriving DecidableEq, Repr

/-- Constructor `CodeAnalyser.__init__` (source lines 112–116). -/
def initState (filepath : String) : VisitState :=
  { filepath := filepath, current_line_number := 1, in_function := false, errors := [] }

/-- Method `CodeAnalyser.log_error` (source lines 118–121): append one
`ErrorMessage` to `self.errors`. -/
def logError (s : VisitState) (line_number : Nat) (key : Nat)
    (name : Option String) : VisitState :=
  { s with errors := s.errors ++ [⟨s.filepath, line_number, key, name⟩] }

/-- The `for default_arg in node.defaults + node.kw_defaults:` loop of
`visit_arguments` (source lines 152–155): on the first default that is
a list, dict or set literal, log one key-12 error at the current
contextual line and `break`. -/
def argumentsLoop (s : VisitState) : List Node → VisitState
  | [] => s
  | default_arg :: rest =>
    if isMutableNode default_arg then logError s s.current_line_number 12 none
    else argumentsLoop s rest

mutual

/-- Method `CodeAnalyser.visit` dispatch (inherited from `ast.NodeVisitor`)
together with the `visit_*` overrides (source lines 123–156) and the
overridden `generic_visit` (lines 123–126), which sets
`current_line_number := node.lineno` for statement and expression
nodes before recursing into the children.

* `visit_ClassDef` also sets an attribute `outside_class` that nothing
  reads; it has no observable effect and is not modelled.
* `visit_FunctionDef` sets `in_function` to `True` on entry and
  unconditionally to `False` on exit (not to the previous value).
* `visit_Name` and `visit_arg` test the name *before* `generic_visit`
  runs, so they read the contextual line number, not the node's own. -/
def visit (s : VisitState) : Node → VisitState
  | .module body => visitList s body
  | .classDef lineno nm body =>
      let s := if name_not_camel_case nm then logError s lineno 8 (some nm) else s
      visitList { s with current_line_number := lineno } body
  | .functionDef lineno nm args body =>
      let s := { s with in_function := true }
      let s := if name_not_snake_case nm then logError s lineno 9 (some nm) else s
      let s := visitList { s with current_line_number := lineno } (args :: body)
      { s with in_function := false }
  | .argumentsNode args kwonlyargs kw_defaults defaults =>
      let s := argumentsLoop s (defaults ++ kw_defaults)
      visitList s (args ++ kwonlyargs ++ kw_defaults ++ defaults)
  | .argNode nm =>
      if name_not_snake_case nm then logError s s.current_line_number 10 (some nm) else s
  | .nameExpr lineno id =>
      let s := if name_not_snake_case id && s.in_function then
                 logError s s.current_line_number 11 (some id)
               else s
      { s with current_line_number := lineno }
  | .listExpr lineno elts => visitList { s with current_line_number := lineno } elts
  | .dictExpr lineno elts => visitList { s with current_line_number := lineno } elts
  | .setExpr lineno elts => visitList { s with current_line_number := lineno } elts
  | .noneLeaf => s
  | .otherExpr lineno children => visitList { s with current_line_number := lineno } children
  | .otherStmt lineno children => visitList { s with current_line_number := lineno } children
termination_by n => (nodeSize n, 0)
decreasing_by
  all_goals simp only [nodeSize, nodesSize, nodesSize_append]
  all_goals apply Prod.Lex.left
  all_goals omega

/-- Visiting a list of child nodes in order, threading the state. -/
def visitList (s : VisitState) : List Node → VisitState
  | [] => s
  | n :: ns => visitList (visit s n) ns
termination_by ns => (nodesSize ns, 1)
decreasing_by
  all_goals simp only [nodesSize]
  all_goals
    first
      | (apply Prod.Lex.left
         have := nodeSize_pos n
         omega)
      | (rcases Nat.eq_zero_or_pos (nodesSize ns) with h | h
         · rw [h]
           simp only [Nat.add_zero]
           exact Prod.Lex.right _ (by omega)
         · exact Prod.Lex.left _ _ (by omega))

end

/-- One file of a batch, as delivered by the out-of-scope collaborators
(spec §6): its path, its raw lines (original whitespace kept, trailing
newline included as file iteration yields it) and the result of
`ast.parse` on its full text — `Except.error` models the `SyntaxError`
that `ast.parse` raises on malformed input. -/
structure PyFile where
  filepath : String
  lines : List (List Char)
  parse : Except String Node

/-- The per-file body of the driver loop (source lines 182–217): run
the line pass, then parse; a parse failure raises before
`report_errors` runs, so the file yields no output and the exception
propagates.  On success the tree pass runs on the same analyser and the
collected errors are reported. -/
def analyseFile (f : PyFile) : Except String (List ErrorMessage) :=
  let lineErrs := linePass f.filepath 1 0 f.lines
  match f.parse with
  | .error e => .error e
  | .ok tree =>
      .ok (report_errors (visit
        { filepath := f.filepath, current_line_number := 1,
          in_function := false, errors := lineErrs } tree).errors)

/-- Loop `for filepath in filepaths:` (source lines 182–217).  The first
component collects the reports printed so far, in file order; the
second is the uncaught exception, if any.  There is no `try`/`except`
in the source: an exception raised for one file terminates the whole
loop, so no later file is processed. -/
def runBatch : List PyFile → List (List ErrorMessage) × Option String
  | [] => ([], none)
  | f :: rest =>
    match analyseFile f with
    | .error e => ([], some e)
    | .ok report =>
        let out := runBatch rest
        (report :: out.1, out.2)

/-! Specification-side definitions

The definitions below formalise the *claims'* vocabulary (printable
length, blank runs, the two-state semicolon machine, default kinds).
They are deliberately written independently of the implementation above
and related to it by the theorems. -/

/-- The printable length of a raw line: its character count with the
trailing line terminator (the `'\n'` that Python file iteration keeps)
not counted. -/
def printableLength (l : List Char) : Nat :=
  if l.getLast? = some '\n' then l.length - 1 else l.length

/-- Length of the maximal run of blank lines at the end of a list of
lines (the blank run immediately preceding whatever comes next). -/
def trailingBlankCount (ls : List (List Char)) : Nat :=
  (ls.reverse.takeWhile isBlankLine).length

/-- The claims' characterisation of the excess-blank-lines rule: one
key-6 diagnostic for every non-blank line immediately preceded by a
run of more than two blank lines, attributed to that line. -/
def key6Spec (fp : String) (ls : List (List Char)) : List ErrorMessage :=
  (List.range ls.length).filterMap fun i =>
    if !isBlankLine (ls.getD i []) ∧ 2 < trailingBlankCount (ls.take i)
    then some ⟨fp, i + 1, 6, none⟩ else none

/-- The state space of the claims' semicolon machine: scanning in code,
inside a string opened by `q`, violation found, or comment reached. -/
inductive SemiState where
  | code
  | inStr (q : Char)
  | fired
  | commented
deriving DecidableEq, Repr

/-- One step of the claims' two-state (plus two absorbing outcomes)
machine: in code a quote opens a string remembering the quote, `#`
commits to "no violation", `;` commits to "violation"; in a string only
the matching quote returns to code; the outcomes absorb. -/
def semiStep (s : SemiState) (c : Char) : SemiState :=
  match s with
  | .code =>
      if c = '\'' ∨ c = '"' then .inStr c
      else if c = '#' then .commented
      else if c = ';' then .fired
      else .code
  | .inStr q => if c = q then .code else .inStr q
  | .fired => .fired
  | .commented => .commented

/-- Running the claims' machine over a whole line from the code
state. -/
def semiRun (l : List Char) : SemiState :=
  l.foldl semiStep .code

/-- The kinds of default-value expression distinguished by the
mutable-default claim: the three mutable literal constructions and a
non-mutable default. -/
inductive DefaultKind where
  | listK
  | dictK
  | setK
  | constK
deriving DecidableEq, Repr

/-- A leaf default expression of the given kind (the mutable literals
are taken empty: their contents are irrelevant to the rule). -/
def exprOfKind : DefaultKind → Node
  | .listK => .listExpr 1 []
  | .dictK => .dictExpr 1 []
  | .setK => .setExpr 1 []
  | .constK => .otherExpr 1 []

/-- Whether a default kind is one of the mutable literal
constructions. -/
def kindIsMutable : DefaultKind → Bool
  | .listK => true
  | .dictK => true
  | .setK => true
  | .constK => false

/-! Claim C10: the rule-11 message carries the code marker twice -/

/-- Claim C10: every rendered `local-variable-not-snake-case` (rule 11)
diagnostic has the form
`<filepath>: Line <n>: S011 S011 Variable name '<name>' should use snake_case`
— the `S011` marker appears twice, once from the zero-padded code
prefix of the rendering and once from the rule-11 message template
itself. -/
theorem C10_rule11_message_doubled (fp : String) (n : Nat) (nm : String) :
    reprErrorMessage ⟨fp, n, 11, some nm⟩ =
      fp ++ ": Line " ++ toString n ++ ": S011 S011 Variable name '" ++ nm ++
        "' should use snake_case" := by
  show fp ++ (": Line " ++ (toString n ++ (": S" ++ (pad3 11 ++
      (" " ++ interpName (generate_error_message 11 (some nm))))))) = _
  rw [show pad3 11 = "011" from rfl]
  rw [show interpName (generate_error_message 11 (some nm)) =
      ("S011 Variable name '" ++ nm) ++ "' should use snake_case" from rfl]
  apply String.ext
  simp only [String.data_append, List.append_assoc]
  rfl

/-! Claim C7: the stray-semicolon scanner -/

theorem foldl_semiStep_fired (l : List Char) :
    l.foldl semiStep SemiState.fired = SemiState.fired := by
  induction l with
  | nil => rfl
  | cons c rest ih => simpa [semiStep] using ih

theorem foldl_semiStep_commented (l : List Char) :
    l.foldl semiStep SemiState.commented = SemiState.commented := by
  induction l with
  | nil => rfl
  | cons c rest ih => simpa [semiStep] using ih

/-- The source's scanning loop agrees with the claims' machine, from
either starting state, for every remembered quote. -/
theorem semicolonAux_eq_semiRun (l : List Char) : ∀ q : Char,
    (semicolonAux l false q = true ↔ l.foldl semiStep SemiState.code = SemiState.fired) ∧
    (semicolonAux l true q = true ↔ l.foldl semiStep (SemiState.inStr q) = SemiState.fired) := by
  induction l with
  | nil => intro q; constructor <;> simp [semicolonAux]
  | cons c rest ih =>
    intro q
    constructor
    · by_cases hq : c = '\'' ∨ c = '"'
      · simp [semicolonAux, hq, semiStep, (ih c).2]
      · by_cases hh : c = '#'
        · simp [semicolonAux, hq, hh, semiStep, foldl_semiStep_commented]
        · by_cases hs : c = ';'
          · simp [semicolonAux, hq, hh, hs, semiStep, foldl_semiStep_fired]
          · simp [semicolonAux, hq, hh, hs, semiStep, (ih q).1]
    · by_cases hc : c = q
      · simp [semicolonAux, hc, semiStep, (ih q).1]
      · simp [semicolonAux, hc, semiStep, (ih q).2]

/-- Claim C7: the stray-semicolon rule fires exactly when the two-state
machine (code / in-string with remembered quote) meets a `;` in code
state before any `#` in code state; a `;` inside a string or after a
comment-starting `#` never fires, and the scan of the spec's three
examples behaves accordingly. -/
theorem C7_semicolon_state_machine :
    (∀ l : List Char, unnecessary_semicolon l = true ↔ semiRun l = SemiState.fired) ∧
    unnecessary_semicolon ("x = 1; y = 2".toList) = true ∧
    unnecessary_semicolon ("x = \"a;b\"".toList) = false ∧
    unnecessary_semicolon ("x = 1  # a;b".toList) = false := by
  refine ⟨fun l => ?_, by decide, by decide, by decide⟩
  exact (semicolonAux_eq_semiRun l ' ').1

/-! Line-pass helper lemmas -/

/-- Among the errors a non-blank line contributes, the key-6 ones are
exactly determined by the blank-line counter. -/
theorem filter_key6_lineErrors (fp : String) (n c : Nat) (l : List Char) :
    (lineErrors fp n c l).filter (fun e => e.key == 6) =
      if 2 < c then [⟨fp, n, 6, none⟩] else [] := by
  unfold lineErrors
  simp only [List.filter_append]
  repeat' split <;> simp_all [List.filter]

/-- Among the errors a non-blank line contributes, the key-1 ones are
exactly determined by the raw line length. -/
theorem filter_key1_lineErrors (fp : String) (n c : Nat) (l : List Char) :
    (lineErrors fp n c l).filter (fun e => e.key == 1) =
      if MAXIMUM_LINE_LENGTH < l.length then [⟨fp, n, 1, none⟩] else [] := by
  unfold lineErrors
  simp only [List.filter_append]
  repeat' split <;> simp_all [List.filter]

/-- The line pass skips over a prefix of blank lines, incrementing the
counter once per line. -/
theorem linePass_skip_blanks (fp : String) (bs : List (List Char))
    (h : ∀ b ∈ bs, isBlankLine b = true) :
    ∀ (n c : Nat) (rest : List (List Char)),
      linePass fp n c (bs ++ rest) = linePass fp (n + bs.length) (c + bs.length) rest := by
  induction bs with
  | nil => intro n c rest; simp
  | cons b bs ih =>
    intro n c rest
    have hb : isBlankLine b = true := h b (by simp)
    rw [List.cons_append, linePass, if_pos hb,
      ih (fun x hx => h x (by simp [hx])) (n + 1) (c + 1) rest]
    simp only [List.length_cons]
    congr 1 <;> omega

/-! Claim C1: blank-run threshold (3 blank lines already fire) -/

/-- Claim C1 as stated is false: a non-blank line preceded by exactly 3
consecutive blank lines *does* receive the excess-blank-lines
diagnostic — here three blank lines followed by `x` produce the key-6
diagnostic at line 4. -/
theorem C1_counterexample_three_blanks :
    (linePass "file.py" 1 0 [['\n'], ['\n'], ['\n'], ['x', '\n']]).filter
        (fun e => e.key == 6) =
      [⟨"file.py", 4, 6, none⟩] := by decide

/-- Claim C1, amended: a non-blank line preceded by exactly 2
consecutive blank lines is not flagged, while a non-blank line preceded
by 3 or more (in particular 4) consecutive blank lines receives exactly
one excess-blank-lines diagnostic, attributed to that first non-blank
line after the run. -/
theorem C1_amended_blank_run (fp : String) (bs : List (List Char)) (l : List Char)
    (hb : ∀ b ∈ bs, isBlankLine b = true) (hl : isBlankLine l = false) :
    (linePass fp 1 0 (bs ++ [l])).filter (fun e => e.key == 6) =
      if 2 < bs.length then [⟨fp, bs.length + 1, 6, none⟩] else [] := by
  rw [linePass_skip_blanks fp bs hb 1 0 [l], linePass, if_neg (by simp [hl])]
  simp only [linePass, List.append_nil, filter_key6_lineErrors, Nat.zero_add]
  rw [Nat.add_comm 1 bs.length]

/-- Witness for `C1_amended_blank_run`: with exactly 3 blank lines the
diagnostic fires once, at line 4. -/
theorem C1_amended_blank_run_witness :
    (linePass "file.py" 1 0 ([['\n'], ['\n'], ['\n']] ++ [['x', '\n']])).filter
        (fun e => e.key == 6) =
      [⟨"file.py", 4, 6, none⟩] := by
  rw [C1_amended_blank_run "file.py" [['\n'], ['\n'], ['\n']] ['x', '\n']
    (by decide) (by decide)]
  decide

/-! Claim C2: line-length threshold counts the line terminator -/

/-- Claim C2 as stated is false: a line of 79 printable characters plus
its newline terminator has printable length 79 (≤ 79), yet the code
logs a line-too-long diagnostic for it, because `len(line)` counts the
terminator and `80 > 79`. -/
theorem C2_counterexample_79_chars :
    printableLength (List.replicate 79 'a' ++ ['\n']) = 79 ∧
    (linePass "file.py" 1 0 [List.replicate 79 'a' ++ ['\n']]).countP
        (fun e => e.key == 1) = 1 := by
  constructor <;> decide

/-- Claim C2, amended: for every non-blank line, the line-too-long
diagnostic fires iff the raw length including the line terminator
exceeds 79; equivalently, a newline-terminated line fires iff its
printable length is at least 79, and an unterminated line fires iff its
printable length exceeds 79.  (Blank lines are never checked at
all.) -/
theorem C2_amended_line_length (fp : String) (l : List Char)
    (h : isBlankLine l = false) :
    ((linePass fp 1 0 [l]).countP (fun e => e.key == 1) =
        if MAXIMUM_LINE_LENGTH < l.length then 1 else 0) ∧
    (l.getLast? = some '\n' →
      ((linePass fp 1 0 [l]).countP (fun e => e.key == 1) = 1 ↔
        MAXIMUM_LINE_LENGTH ≤ printableLength l)) ∧
    (l.getLast? ≠ some '\n' →
      ((linePass fp 1 0 [l]).countP (fun e => e.key == 1) = 1 ↔
        MAXIMUM_LINE_LENGTH < printableLength l)) := by
  have hstep : linePass fp 1 0 [l] = lineErrors fp 1 0 l := by
    simp [linePass, h]
  have hcount : (linePass fp 1 0 [l]).countP (fun e => e.key == 1) =
      if MAXIMUM_LINE_LENGTH < l.length then 1 else 0 := by
    rw [hstep, List.countP_eq_length_filter, filter_key1_lineErrors]
    split <;> simp
  refine ⟨hcount, fun hnl => ?_, fun hnl => ?_⟩
  · have hne : l ≠ [] := by
      intro he; rw [he] at hnl; simp at hnl
    have hlen : l.length = printableLength l + 1 := by
      unfold printableLength
      rw [if_pos hnl]
      have : 0 < l.length := List.length_pos.mpr hne
      omega
    rw [hcount, hlen]
    constructor
    · intro h1
      by_contra hno
      rw [if_neg (by unfold MAXIMUM_LINE_LENGTH at *; omega)] at h1
      exact absurd h1 (by omega)
    · intro h1
      rw [if_pos (by unfold MAXIMUM_LINE_LENGTH at *; omega)]
  · have hlen : printableLength l = l.length := by
      unfold printableLength
      rw [if_neg hnl]
    rw [hcount, hlen]
    constructor
    · intro h1
      by_contra hno
      rw [if_neg hno] at h1
      exact absurd h1 (by omega)
    · intro h1
      rw [if_pos h1]

/-- Witness for `C2_amended_line_length`: the 80-character line (79
printable plus the newline) fires. -/
theorem C2_amended_line_length_witness :
    (linePass "file.py" 1 0 [List.replicate 79 'a' ++ ['\n']]).countP
        (fun e => e.key == 1) = 1 := by
  have h := (C2_amended_line_length "file.py" (List.replicate 79 'a' ++ ['\n'])
    (by decide)).1
  rw [h]
  decide

/-! Claim C3: the indentation rule counts any whitespace, not only spaces -/

/-- The indentation regex matches iff the count of leading whitespace
characters (of any kind) is a multiple of four and some non-whitespace
character follows. -/
theorem matchIndent_spec (l : List Char) :
    matchIndent l =
      (((l.takeWhile isPySpace).length % 4 == 0) && !(l.all isPySpace)) := by
  induction l using matchIndent.induct with
  | case1 c b c2 d rest hc ih =>
    by_cases hb : isPySpace b
    · by_cases hc2 : isPySpace c2
      · by_cases hd : isPySpace d
        · simp only [matchIndent, if_pos hc, hb, hc2, hd, Bool.and_self, Bool.true_and, ih]
          rw [Bool.eq_iff_iff]
          simp [List.takeWhile, List.all_cons, hc, hb, hc2, hd, beq_iff_eq]
          intro x hx hfx
          omega
        · rw [Bool.eq_iff_iff]
          simp [matchIndent, hc, hb, hc2, hd, List.takeWhile, List.all_cons, beq_iff_eq]
      · rw [Bool.eq_iff_iff]
        simp [matchIndent, hc, hb, hc2, List.takeWhile, List.all_cons, beq_iff_eq]
    · rw [Bool.eq_iff_iff]
      simp [matchIndent, hc, hb, List.takeWhile, List.all_cons, beq_iff_eq]
  | case2 c b c2 d rest hc =>
    simp [matchIndent, hc, List.takeWhile, List.all_cons]
  | case3 => simp [matchIndent]
  | case4 c tail hshort =>
    by_cases hc : isPySpace c
    · rcases tail with _ | ⟨b, _ | ⟨c2, _ | ⟨d, rest'⟩⟩⟩
      · simp [matchIndent, hc, List.takeWhile, List.all_cons]
      · by_cases hb : isPySpace b <;>
          simp [matchIndent, hc, hb, List.takeWhile, List.all_cons]
      · by_cases hb : isPySpace b
        · by_cases hc2 : isPySpace c2 <;>
            simp [matchIndent, hc, hb, hc2, List.takeWhile, List.all_cons]
        · simp [matchIndent, hc, hb, List.takeWhile, List.all_cons]
      · exact absurd rfl (hshort b c2 d rest')
    · rcases tail with _ | ⟨b, _ | ⟨c2, _ | ⟨d, rest'⟩⟩⟩ <;>
        simp [matchIndent, hc, List.takeWhile, List.all_cons]

/-- Claim C3 as stated is false: a line indented with four tab
characters before non-space content receives no bad-indentation
diagnostic, although its leading whitespace is not a multiple of four
literal space characters (it contains no space at all). -/
theorem C3_counterexample_four_tabs :
    indentation_not_multiple_of_four ['\t', '\t', '\t', '\t', 'x'] = false ∧
    (['\t', '\t', '\t', '\t', 'x'].takeWhile isPySpace).all (fun c => c = ' ') = false := by
  constructor <;> decide

/-- Claim C3, amended: for every non-blank line, the bad-indentation
diagnostic fires iff the number of leading whitespace characters —
counting every whitespace character (tab, space, …) as one unit — is
not a multiple of four; a tab-indented line is flagged exactly when
that count is not a multiple of four. -/
theorem C3_amended_indentation (l : List Char) (h : isBlankLine l = false) :
    indentation_not_multiple_of_four l =
      !((l.takeWhile isPySpace).length % 4 == 0) := by
  unfold indentation_not_multiple_of_four
  rw [matchIndent_spec]
  unfold isBlankLine at h
  rw [h]
  simp

/-- Witness for `C3_amended_indentation`: a line indented by one tab is
flagged (1 is not a multiple of 4). -/
theorem C3_amended_indentation_witness :
    indentation_not_multiple_of_four ['\t', 'x'] = true := by
  rw [C3_amended_indentation ['\t', 'x'] (by decide)]
  decide

/-! Claim C9: characterisation of the excess-blank-lines diagnostics -/

theorem takeWhile_append_of_all {α : Type} {p : α → Bool} {l₁ : List α}
    (h : l₁.all p = true) (l₂ : List α) :
    (l₁ ++ l₂).takeWhile p = l₁ ++ l₂.takeWhile p := by
  induction l₁ with
  | nil => simp
  | cons a l ih =>
    simp only [List.all_cons, Bool.and_eq_true] at h
    simp [List.takeWhile_cons, h.1, ih h.2]

theorem takeWhile_append_of_not_all {α : Type} {p : α → Bool} {l₁ : List α}
    (h : l₁.all p = false) (l₂ : List α) :
    (l₁ ++ l₂).takeWhile p = l₁.takeWhile p := by
  induction l₁ with
  | nil => simp at h
  | cons a l ih =>
    by_cases hp : p a
    · have hl : l.all p = false := by
        simp only [List.all_cons, hp, Bool.true_and] at h
        exact h
      simp [List.takeWhile_cons, hp, ih hl]
    · simp [List.takeWhile_cons, hp]

theorem trailingBlankCount_cons_of_all {l : List Char} {t : List (List Char)}
    (h : t.all isBlankLine = true) :
    trailingBlankCount (l :: t) = t.length + (if isBlankLine l then 1 else 0) := by
  unfold trailingBlankCount
  rw [List.reverse_cons, takeWhile_append_of_all (by rwa [List.all_reverse]),
    List.length_append, List.length_reverse]
  congr 1
  by_cases hb : isBlankLine l <;> simp [List.takeWhile_cons, hb]

theorem trailingBlankCount_cons_of_not_all {l : List Char} {t : List (List Char)}
    (h : t.all isBlankLine = false) :
    trailingBlankCount (l :: t) = trailingBlankCount t := by
  unfold trailingBlankCount
  rw [List.reverse_cons, takeWhile_append_of_not_all (by rwa [List.all_reverse])]

theorem trailingBlankCount_of_all {t : List (List Char)}
    (h : t.all isBlankLine = true) :
    trailingBlankCount t = t.length := by
  unfold trailingBlankCount
  have h3 := takeWhile_append_of_all
    (show t.reverse.all isBlankLine = true by rwa [List.all_reverse]) ([] : List (List Char))
  simp only [List.append_nil, List.takeWhile_nil] at h3
  rw [h3, List.length_reverse]

/-- The run of blank lines seen by the counter just before position `i`
of `ls`, when the counter started at `c`: the trailing blank run of the
first `i` lines, extended by `c` if all of them are blank. -/
def runBefore (c : Nat) (ls : List (List Char)) (i : Nat) : Nat :=
  if (ls.take i).all isBlankLine then c + i else trailingBlankCount (ls.take i)

theorem runBefore_zero (c : Nat) (ls : List (List Char)) : runBefore c ls 0 = c := by
  simp [runBefore]

theorem runBefore_cons_succ (c : Nat) (l : List Char) (rest : List (List Char)) (i : Nat)
    (hi : i ≤ rest.length) :
    runBefore c (l :: rest) (i + 1) =
      if isBlankLine l then runBefore (c + 1) rest i else runBefore 0 rest i := by
  have hlen : (rest.take i).length = i := by rw [List.length_take]; omega
  unfold runBefore
  rw [List.take_succ_cons]
  by_cases hb : isBlankLine l <;> by_cases ha : (rest.take i).all isBlankLine
  · rw [if_pos hb, if_pos (by simp [List.all_cons, hb, ha]), if_pos ha]
    omega
  · have ha' : (rest.take i).all isBlankLine = false := by
      simpa using ha
    rw [if_pos hb, if_neg (by simp [List.all_cons, ha']), if_neg ha,
      trailingBlankCount_cons_of_not_all ha']
  · rw [if_neg hb, if_neg (by simp [List.all_cons, hb]), if_pos ha,
      trailingBlankCount_cons_of_all (by simpa using ha)]
    have hb' : isBlankLine l = false := by simpa using hb
    rw [hb']
    simp [hlen]
  · have ha' : (rest.take i).all isBlankLine = false := by
      simpa using ha
    rw [if_neg hb, if_neg (by simp [List.all_cons, ha']), if_neg ha,
      trailingBlankCount_cons_of_not_all ha']

theorem linePass_filter6_aux (ls : List (List Char)) : ∀ (fp : String) (n c : Nat),
    (linePass fp n c ls).filter (fun e => e.key == 6) =
      (List.range ls.length).filterMap (fun i =>
        if !isBlankLine (ls.getD i []) ∧ 2 < runBefore c ls i
        then some ⟨fp, n + i, 6, none⟩ else none) := by
  induction ls with
  | nil => intro fp n c; rfl
  | cons l rest ih =>
    intro fp n c
    rw [List.length_cons, List.range_succ_eq_map, List.filterMap_cons, List.filterMap_map]
    by_cases hb : isBlankLine l
    · have hstep : linePass fp n c (l :: rest) = linePass fp (n + 1) (c + 1) rest := by
        simp [linePass, hb]
      have hhead : (if !isBlankLine ((l :: rest).getD 0 []) ∧ 2 < runBefore c (l :: rest) 0
          then some (⟨fp, n + 0, 6, none⟩ : ErrorMessage) else none) = none := by
        rw [if_neg]
        simp [List.getD_cons_zero, hb]
      rw [hstep, ih fp (n + 1) (c + 1), hhead]
      apply List.filterMap_congr
      intro i hi
      have hi' : i ≤ rest.length := le_of_lt (List.mem_range.mp hi)
      simp only [Function.comp_apply]
      rw [show Nat.succ i = i + 1 from rfl, List.getD_cons_succ,
        runBefore_cons_succ c l rest i hi', if_pos hb]
      split
      · simp only [Option.some.injEq, ErrorMessage.mk.injEq]
        exact ⟨trivial, by omega, trivial, trivial⟩
      · rfl
    · have hstep : linePass fp n c (l :: rest) =
          lineErrors fp n c l ++ linePass fp (n + 1) 0 rest := by
        simp [linePass, hb]
      have hb' : isBlankLine l = false := by simpa using hb
      have hhead : (if !isBlankLine ((l :: rest).getD 0 []) ∧ 2 < runBefore c (l :: rest) 0
          then some (⟨fp, n + 0, 6, none⟩ : ErrorMessage) else none) =
          if 2 < c then some ⟨fp, n, 6, none⟩ else none := by
        by_cases h2 : 2 < c
        · rw [if_pos ⟨by simp [List.getD_cons_zero, hb'], by rwa [runBefore_zero]⟩, if_pos h2]
          simp
        · rw [if_neg (by rw [runBefore_zero]; tauto), if_neg h2]
      rw [hstep, List.filter_append, filter_key6_lineErrors, ih fp (n + 1) 0, hhead]
      have htail : List.filterMap
            ((fun i => if !isBlankLine ((l :: rest).getD i []) ∧ 2 < runBefore c (l :: rest) i
              then some (⟨fp, n + i, 6, none⟩ : ErrorMessage) else none) ∘ Nat.succ)
            (List.range rest.length) =
          List.filterMap (fun i => if !isBlankLine (rest.getD i []) ∧ 2 < runBefore 0 rest i
              then some (⟨fp, n + 1 + i, 6, none⟩ : ErrorMessage) else none)
            (List.range rest.length) := by
        apply List.filterMap_congr
        intro i hi
        have hi' : i ≤ rest.length := le_of_lt (List.mem_range.mp hi)
        simp only [Function.comp_apply]
        rw [show Nat.succ i = i + 1 from rfl, List.getD_cons_succ,
          runBefore_cons_succ c l rest i hi',
          if_neg (show ¬(isBlankLine l = true) from by simp [hb'])]
        split
        · simp only [Option.some.injEq, ErrorMessage.mk.injEq]
          exact ⟨trivial, by omega, trivial, trivial⟩
        · rfl
      rw [htail]
      by_cases h2 : 2 < c
      · rw [if_pos h2, if_pos h2]
        rfl
      · rw [if_neg h2, if_neg h2]
        rfl

/-- Claim C9: the key-6 (excess-blank-lines) diagnostics of the line
pass are exactly one diagnostic for every non-blank line immediately
preceded by a run of more than two blank lines, attributed to that
non-blank line; the check happens only on the transition back to a
non-blank line, so a blank run at the end of the file is never
flagged. -/
theorem C9_blank_run_characterisation (fp : String) (lines : List (List Char)) :
    (linePass fp 1 0 lines).filter (fun e => e.key == 6) = key6Spec fp lines := by
  rw [linePass_filter6_aux lines fp 1 0]
  unfold key6Spec
  apply List.filterMap_congr
  intro i hi
  have hi' : i < lines.length := List.mem_range.mp hi
  have hrb : runBefore 0 lines i = trailingBlankCount (lines.take i) := by
    unfold runBefore
    by_cases ha : (lines.take i).all isBlankLine
    · rw [if_pos ha, trailingBlankCount_of_all ha, List.length_take]
      omega
    · rw [if_neg ha]
  rw [hrb]
  have hn : 1 + i = i + 1 := by omega
  rw [hn]

/-! Claims C5 and C6: sorting and deduplication -/

theorem pairLe_total {a b : ErrorMessage} (h : pairLe a b = false) : pairLe b a = true := by
  simp only [pairLe, decide_eq_false_iff_not, decide_eq_true_eq, not_or, not_and] at *
  omega

theorem pairLe_trans {a b c : ErrorMessage} (h1 : pairLe a b = true)
    (h2 : pairLe b c = true) : pairLe a c = true := by
  simp only [pairLe, decide_eq_true_eq] at *
  omega

theorem pairLe_of_eq_pair {a b : ErrorMessage} (h1 : a.line_number = b.line_number)
    (h2 : a.key = b.key) : pairLe a b = true := by
  simp only [pairLe, decide_eq_true_eq]
  omega

theorem mem_insertSorted {x y : ErrorMessage} : ∀ {s : List ErrorMessage},
    y ∈ insertSorted x s ↔ y = x ∨ y ∈ s := by
  intro s
  induction s with
  | nil => simp [insertSorted]
  | cons z zs ih =>
    by_cases h : pairLe x z
    · rw [insertSorted, if_pos h]
      simp [List.mem_cons]
    · rw [insertSorted, if_neg h]
      simp only [List.mem_cons, ih]
      tauto

theorem pairwise_insertSorted (x : ErrorMessage) :
    ∀ s : List ErrorMessage, s.Pairwise (fun a b => pairLe a b = true) →
      (insertSorted x s).Pairwise (fun a b => pairLe a b = true) := by
  intro s
  induction s with
  | nil => intro _; simp [insertSorted]
  | cons y ys ih =>
    intro hp
    rw [List.pairwise_cons] at hp
    by_cases h : pairLe x y
    · rw [insertSorted, if_pos h, List.pairwise_cons]
      constructor
      · intro z hz
        rcases List.mem_cons.mp hz with rfl | hz
        · exact h
        · exact pairLe_trans h (hp.1 z hz)
      · rw [List.pairwise_cons]
        exact hp
    · rw [insertSorted, if_neg h, List.pairwise_cons]
      constructor
      · intro z hz
        rcases mem_insertSorted.mp hz with rfl | hz
        · exact pairLe_total (by simpa using h)
        · exact hp.1 z hz
      · exact ih hp.2

theorem pairwise_sortErrors (l : List ErrorMessage) :
    (sortErrors l).Pairwise (fun a b => pairLe a b = true) := by
  induction l with
  | nil => simp [sortErrors]
  | cons x xs ih => exact pairwise_insertSorted x (sortErrors xs) ih

/-- Stability of one insertion step, for a predicate that is constant
on a `pairLe`-equivalence class. -/
theorem filter_insertSorted (p : ErrorMessage → Bool)
    (hp : ∀ a b, p a = true → p b = true → pairLe a b = true) (x : ErrorMessage) :
    ∀ s : List ErrorMessage,
      (insertSorted x s).filter p = if p x then x :: s.filter p else s.filter p := by
  intro s
  induction s with
  | nil =>
    by_cases hx : p x <;> simp [insertSorted, List.filter_cons, hx]
  | cons y ys ih =>
    by_cases h : pairLe x y
    · rw [insertSorted, if_pos h]
      by_cases hx : p x <;> simp [List.filter_cons, hx]
    · rw [insertSorted, if_neg h, List.filter_cons, ih]
      by_cases hx : p x
      · by_cases hy' : p y
        · exact absurd (hp x y hx hy') h
        · have hy : p y = false := by simpa using hy'
          rw [hy, if_neg (by simp), if_pos hx, if_pos hx, List.filter_cons, hy,
            if_neg (by simp)]
      · have hx' : p x = false := by simpa using hx
        simp [hx', List.filter_cons]

/-- Stability of the sort: the sublist of diagnostics with any fixed
`(line_number, key)` pair is unchanged by sorting. -/
theorem filter_sortErrors (p : ErrorMessage → Bool)
    (hp : ∀ a b, p a = true → p b = true → pairLe a b = true) :
    ∀ l : List ErrorMessage, (sortErrors l).filter p = l.filter p := by
  intro l
  induction l with
  | nil => rfl
  | cons x xs ih =>
    rw [sortErrors, filter_insertSorted p hp x (sortErrors xs), ih, List.filter_cons]

theorem dedupPass_sublist : ∀ (seen : List (Option String)) (s : List ErrorMessage),
    (dedupPass seen s).Sublist s := by
  intro seen s
  induction s generalizing seen with
  | nil => simp [dedupPass]
  | cons e rest ih =>
    rw [dedupPass]
    by_cases h11 : e.key = 11
    · rw [if_pos h11]
      by_cases hseen : e.name ∈ seen
      · rw [if_pos hseen]
        exact (ih seen).cons e
      · rw [if_neg hseen]
        exact (ih (e.name :: seen)).cons₂ e
    · rw [if_neg h11]
      exact (ih seen).cons₂ e

/-- Deduplication never touches a diagnostic of any rule other than
11. -/
theorem filter_non11_dedupPass : ∀ (seen : List (Option String)) (s : List ErrorMessage),
    (dedupPass seen s).filter (fun e => !(e.key == 11)) =
      s.filter (fun e => !(e.key == 11)) := by
  intro seen s
  induction s generalizing seen with
  | nil => rfl
  | cons e rest ih =>
    rw [dedupPass]
    by_cases h11 : e.key = 11
    · rw [if_pos h11]
      have he : (!(e.key == 11)) = false := by simp [h11]
      by_cases hseen : e.name ∈ seen
      · rw [if_pos hseen, ih seen, List.filter_cons, he, if_neg (by simp)]
      · rw [if_neg hseen, List.filter_cons, he, if_neg (by simp), ih (e.name :: seen),
          List.filter_cons, he, if_neg (by simp)]
    · rw [if_neg h11]
      have he : (!(e.key == 11)) = true := by simp [h11]
      rw [List.filter_cons, he, if_pos rfl, List.filter_cons, he, if_pos rfl, ih seen]

/-- For each captured name, deduplication keeps exactly the first
rule-11 diagnostic carrying it (none at all if the name was already
seen). -/
theorem filter_name11_dedupPass (nm : Option String) :
    ∀ (seen : List (Option String)) (s : List ErrorMessage),
      (dedupPass seen s).filter (fun e => e.key == 11 && e.name == nm) =
        if nm ∈ seen then []
        else (s.filter (fun e => e.key == 11 && e.name == nm)).take 1 := by
  intro seen s
  induction s generalizing seen with
  | nil => simp [dedupPass, List.filter]
  | cons e rest ih =>
    rw [dedupPass]
    by_cases h11 : e.key = 11
    · rw [if_pos h11]
      by_cases hnm : e.name = nm
      · have hpe : (e.key == 11 && e.name == nm) = true := by
          simp [h11, hnm]
        by_cases hseen : e.name ∈ seen
        · rw [if_pos hseen, ih seen]
          have hs : nm ∈ seen := by rw [← hnm]; exact hseen
          rw [if_pos hs, if_pos hs]
        · rw [if_neg hseen, List.filter_cons, hpe, if_pos rfl, ih (e.name :: seen)]
          rw [if_pos (show nm ∈ e.name :: seen from by
            rw [← hnm]; exact List.mem_cons_self _ _)]
          rw [if_neg (show ¬ nm ∈ seen from fun hh => hseen (by rw [hnm]; exact hh))]
          rw [List.filter_cons, hpe, if_pos rfl]
          simp
      · have hpe : (e.key == 11 && e.name == nm) = false := by
          simp [hnm]
        by_cases hseen : e.name ∈ seen
        · rw [if_pos hseen, ih seen]
          by_cases hs2 : nm ∈ seen
          · rw [if_pos hs2, if_pos hs2]
          · rw [if_neg hs2, if_neg hs2, List.filter_cons, hpe, if_neg (by simp)]
        · have hmem : (nm ∈ e.name :: seen) ↔ (nm ∈ seen) := by
            constructor
            · intro h
              rcases List.mem_cons.mp h with h | h
              · exact absurd h.symm hnm
              · exact h
            · intro h
              exact List.mem_cons_of_mem _ h
          rw [if_neg hseen, List.filter_cons, hpe, if_neg (by simp), ih (e.name :: seen)]
          by_cases hs2 : nm ∈ seen
          · rw [if_pos (hmem.mpr hs2), if_pos hs2]
          · rw [if_neg (fun hh => hs2 (hmem.mp hh)), if_neg hs2,
              List.filter_cons, hpe, if_neg (by simp)]
    · rw [if_neg h11]
      have hpe : (e.key == 11 && e.name == nm) = false := by
        simp [h11]
      rw [List.filter_cons, hpe, if_neg (by simp), ih seen]
      by_cases hs2 : nm ∈ seen
      · rw [if_pos hs2, if_pos hs2]
      · rw [if_neg hs2, if_neg hs2, List.filter_cons, hpe, if_neg (by simp)]

/-- Claim C5: deduplication applies only to rule-11 diagnostics — the
printed list is a sublist of the sorted list in which, for every
captured name, exactly the first rule-11 diagnostic in sorted order
survives (regardless of line number), while the diagnostics of every
other rule are printed once per occurrence. -/
theorem C5_dedup_rule11_only (errs : List ErrorMessage) (nm : Option String) :
    (report_errors errs).Sublist (sortErrors errs) ∧
    (report_errors errs).filter (fun e => !(e.key == 11)) =
      (sortErrors errs).filter (fun e => !(e.key == 11)) ∧
    (report_errors errs).filter (fun e => e.key == 11 && e.name == nm) =
      ((sortErrors errs).filter (fun e => e.key == 11 && e.name == nm)).take 1 := by
  unfold report_errors
  refine ⟨dedupPass_sublist [] (sortErrors errs),
    filter_non11_dedupPass [] (sortErrors errs), ?_⟩
  rw [filter_name11_dedupPass nm [] (sortErrors errs), if_neg (by simp)]

/-- Claim C6: the printed diagnostics are sorted by the pair
`(line_number, key)` ascending, and the sort is stable — for every
fixed pair, the diagnostics carrying it appear in discovery order
(sorting does not change their relative order). -/
theorem C6_sorted_stable_output (errs : List ErrorMessage) (n k : Nat) :
    (report_errors errs).Pairwise (fun a b => pairLe a b = true) ∧
    (sortErrors errs).filter (fun e => e.line_number == n && e.key == k) =
      errs.filter (fun e => e.line_number == n && e.key == k) := by
  constructor
  · exact List.Pairwise.sublist (dedupPass_sublist [] (sortErrors errs))
      (pairwise_sortErrors errs)
  · apply filter_sortErrors
    intro a b ha hb
    simp only [Bool.and_eq_true, beq_iff_eq] at ha hb
    exact pairLe_of_eq_pair (ha.1.trans hb.1.symm) (ha.2.trans hb.2.symm)


/-! Claim C8: at most one mutable-default diagnostic per parameter list -/

theorem isMutableNode_exprOfKind (k : DefaultKind) :
    isMutableNode (exprOfKind k) = kindIsMutable k := by
  cases k <;> rfl

theorem any_map_exprOfKind (ks : List DefaultKind) :
    (ks.map exprOfKind).any isMutableNode = ks.any kindIsMutable := by
  induction ks with
  | nil => rfl
  | cons k ks ih => simp [List.any_cons, ih, isMutableNode_exprOfKind]

/-- Visiting the leaf default expressions themselves logs nothing. -/
theorem visitList_exprOfKind_errors (ks : List DefaultKind) :
    ∀ s : VisitState, (visitList s (ks.map exprOfKind)).errors = s.errors := by
  induction ks with
  | nil => intro s; simp [visitList]
  | cons k ks ih =>
    intro s
    rw [List.map_cons, visitList]
    rw [ih]
    cases k <;> simp [visit, exprOfKind, visitList]

/-- The defaults loop appends exactly one key-12 error if any default
is a mutable literal, and none otherwise. -/
theorem argumentsLoop_errors (s : VisitState) : ∀ ds : List Node,
    (argumentsLoop s ds).errors =
      s.errors ++ (if ds.any isMutableNode
        then [⟨s.filepath, s.current_line_number, 12, none⟩] else []) := by
  intro ds
  induction ds with
  | nil => simp [argumentsLoop]
  | cons d ds ih =>
    rw [argumentsLoop]
    by_cases hd : isMutableNode d
    · rw [if_pos hd, List.any_cons, hd]
      simp [logError]
    · rw [if_neg hd, ih, List.any_cons]
      have hd' : isMutableNode d = false := by simpa using hd
      rw [hd']
      simp

theorem countP12_logError9 (s : VisitState) (ln : Nat) (x : Option String) :
    (logError s ln 9 x).errors.countP (fun e => e.key == 12) =
      s.errors.countP (fun e => e.key == 12) := by
  simp [logError, List.countP_append, List.countP_cons]

/-- Claim C8: the defaults loop of `visit_arguments` appends exactly
one key-12 diagnostic when some default is a list/dict/set literal and
none otherwise (it stops at the first offending default, never logging
one per default); and a full tree pass over a function definition whose
parameter list carries defaults of the given kinds produces exactly one
mutable-default diagnostic when some kind is mutable, else none. -/
theorem C8_mutable_default_once (fp nm : String) (ln : Nat) (ks : List DefaultKind)
    (s : VisitState) (ds : List Node) :
    ((argumentsLoop s ds).errors =
      s.errors ++ (if ds.any isMutableNode
        then [⟨s.filepath, s.current_line_number, 12, none⟩] else [])) ∧
    ((visit (initState fp) (.module [.functionDef ln nm
        (.argumentsNode [] [] [] (ks.map exprOfKind)) []])).errors.countP
          (fun e => e.key == 12) =
      if ks.any kindIsMutable then 1 else 0) := by
  refine ⟨argumentsLoop_errors s ds, ?_⟩
  simp only [visit, visitList, List.append_nil, List.nil_append]
  rw [visitList_exprOfKind_errors, argumentsLoop_errors]
  rw [List.countP_append, any_map_exprOfKind]
  by_cases hns : name_not_snake_case nm
  · rw [if_pos hns]
    rw [countP12_logError9]
    simp only [initState, List.countP_nil, Nat.zero_add]
    split <;> simp
  · rw [if_neg hns]
    simp only [initState, List.countP_nil, Nat.zero_add]
    split <;> simp

/-! Claim C4: a parse failure aborts the whole batch -/

theorem visit_module_nil (s : VisitState) : visit s (Node.module []) = s := by
  rw [visit, visitList]

/-- Claim C4 as stated is false: with a first file whose parse fails
and a second, well-formed file containing a violation, the batch
produces no report at all for the second file — the uncaught parse
failure terminates the loop instead of letting the remaining files run
to completion.  (Alone, the second file does report its stray-semicolon
diagnostic.) -/
theorem C4_counterexample_batch_abort :
    runBatch [⟨"bad.py", [], .error "SyntaxError: invalid syntax"⟩,
              ⟨"good.py", [['x', ' ', '=', ' ', '1', ';', '\n']], .ok (.module [])⟩] =
      ([], some "SyntaxError: invalid syntax") ∧
    runBatch [⟨"good.py", [['x', ' ', '=', ' ', '1', ';', '\n']], .ok (.module [])⟩] =
      ([[⟨"good.py", 1, 3, none⟩]], none) := by
  constructor
  · rfl
  · simp only [runBatch, analyseFile]
    rw [visit_module_nil]
    rfl

/-- Claim C4, amended: when parsing of one file fails, that file yields
no diagnostics and the raised error is surfaced, but it terminates the
batch: the files before it are reported as usual and every file after
it is skipped (the result does not depend on `rest` at all). -/
theorem C4_amended_parse_failure_aborts (pre : List PyFile) (f : PyFile)
    (rest : List PyFile) (e : String) (hf : f.parse = .error e)
    (hpre : ∀ g ∈ pre, ∃ t, g.parse = .ok t) :
    analyseFile f = .error e ∧
    runBatch (pre ++ f :: rest) = ((runBatch pre).1, some e) := by
  have hfail : analyseFile f = .error e := by
    unfold analyseFile
    rw [hf]
  refine ⟨hfail, ?_⟩
  induction pre with
  | nil =>
    rw [List.nil_append]
    simp only [runBatch]
    rw [hfail]
  | cons g pre ih =>
    obtain ⟨t, ht⟩ := hpre g (List.mem_cons_self g pre)
    have hg : ∃ r, analyseFile g = .ok r := by
      unfold analyseFile
      rw [ht]
      exact ⟨_, rfl⟩
    obtain ⟨r, hr⟩ := hg
    have hcons : ∀ fs : List PyFile,
        runBatch (g :: fs) = (r :: (runBatch fs).1, (runBatch fs).2) := by
      intro fs
      simp only [runBatch]
      rw [hr]
    rw [List.cons_append, hcons (pre ++ f :: rest), hcons pre,
      ih (fun x hx => hpre x (List.mem_cons_of_mem g hx))]

/-- Witness for `C4_amended_parse_failure_aborts`: one good file before
the failing one keeps its report; the good file after it is skipped. -/
theorem C4_amended_parse_failure_aborts_witness :
    analyseFile ⟨"bad.py", [], .error "SyntaxError: invalid syntax"⟩ =
      .error "SyntaxError: invalid syntax" ∧
    runBatch ([⟨"ok.py", [], .ok (.module [])⟩] ++
        ⟨"bad.py", [], .error "SyntaxError: invalid syntax"⟩ ::
        [⟨"late.py", [], .ok (.module [])⟩]) =
      ((runBatch [⟨"ok.py", [], .ok (.module [])⟩]).1,
        some "SyntaxError: invalid syntax") := by
  exact C4_amended_parse_failure_aborts
    [⟨"ok.py", [], .ok (.module [])⟩]
    ⟨"bad.py", [], .error "SyntaxError: invalid syntax"⟩
    [⟨"late.py", [], .ok (.module [])⟩]
    "SyntaxError: invalid syntax"
    rfl
    (by
      intro g hg
      rcases List.mem_singleton.mp hg with rfl
      exact ⟨Node.module [], rfl⟩)

end CodeAnalyzer
